import Mathlib

/-!
Verification of the PromptLab storage and query layer.

The Python backend (src/backend/app) is shallowly embedded here.  Python
strings are modelled as lists of Unicode code points (`List Nat`); Python
`datetime` timestamps are modelled as natural numbers; `Optional[T]` is
`Option T`; a handler that can fail with an HTTP error returns `Option`.
The modules `app/storage.py` and `app/utils.py` are imported by the code
but absent from the repository snapshot, so their operations are modelled
from the specification text (each such definition is marked in its doc
comment); `app/api.py` and `app/models.py` are translated directly.
-/

/-- A Python string, as its sequence of Unicode code points. -/
abbrev Str := List Nat

/-- Convert a Lean string literal to its code-point model. -/
def str (s : String) : Str := s.data.map Char.toNat

/-- Code point of an ASCII whitespace character, as recognised by Python
`str.strip()` (space, tab, newline, vertical tab, form feed, carriage return). -/
def isWsCp (n : Nat) : Bool := n = 32 || n = 9 || n = 10 || n = 11 || n = 12 || n = 13

/-- ASCII lowercasing of one code point, the effect of Python `str.lower()`
on the ASCII range handled by this service. -/
def lowerCp (n : Nat) : Nat := if 65 ≤ n ∧ n ≤ 90 then n + 32 else n

/-- Python `str.lower()`. -/
def lowerStr (s : Str) : Str := s.map lowerCp

/-- Leading-whitespace removal (first half of Python `str.strip()`). -/
def stripLeft (s : Str) : Str := s.dropWhile isWsCp

/-- Trailing-whitespace removal (second half of Python `str.strip()`). -/
def stripRight (s : Str) : Str := (s.reverse.dropWhile isWsCp).reverse

/-- Python `str.strip()`: drop leading and trailing whitespace. -/
def pyStrip (s : Str) : Str := stripRight (stripLeft s)

/-- Python truthiness of an `Optional[str]` value: `None` and the empty
string are falsy. -/
def truthy : Option Str → Bool
  | none => false
  | some s => !s.isEmpty

/-- Python truthiness of an `Optional[List[str]]` value. -/
def truthyList : Option (List Str) → Bool
  | none => false
  | some l => !l.isEmpty

-- ============== Entity model (app/models.py) ==============

/-- The `Prompt` model of `app/models.py`: a stored prompt record. -/
structure Prompt where
  id : Str
  title : Str
  content : Str
  description : Option Str
  collection_id : Option Str
  tags : List Str
  created_at : Nat
  updated_at : Nat
deriving DecidableEq

/-- The `Collection` model of `app/models.py`. -/
structure Collection where
  id : Str
  name : Str
  description : Option Str
  created_at : Nat
deriving DecidableEq

/-- The `PromptCreate` payload of `app/models.py` (all creation fields;
`description`/`collection_id` optional, `tags` defaulting to `[]`). -/
structure PromptCreate where
  title : Str
  content : Str
  description : Option Str
  collection_id : Option Str
  tags : List Str
deriving DecidableEq

/-- The `PromptUpdate` payload of `app/models.py`: every field optional,
`None` meaning "not supplied". -/
structure PromptUpdate where
  title : Option Str
  content : Option Str
  description : Option Str
  collection_id : Option Str
  tags : Option (List Str)
deriving DecidableEq

/-- The `CollectionCreate` payload of `app/models.py`. -/
structure CollectionCreate where
  name : Str
  description : Option Str
deriving DecidableEq

-- ============== Store (app/storage.py, absent from the snapshot) ==============

/-- Modelled from the spec: `app/storage.py` is absent from the snapshot.
The Store owns the two insertion-ordered id-to-entity mappings
(`_prompts`, `_collections`), modelled as lists of entities addressed by
their `id` field. -/
structure Storage where
  prompts : List Prompt
  collections : List Collection
deriving DecidableEq

/-- Modelled from the spec: Store `get` for prompts — pure lookup,
`none` when absent, never raises. -/
def Storage.get_prompt (s : Storage) (pid : Str) : Option Prompt :=
  s.prompts.find? (fun p => decide (p.id = pid))

/-- Modelled from the spec: Store `get` for collections. -/
def Storage.get_collection (s : Storage) (cid : Str) : Option Collection :=
  s.collections.find? (fun c => decide (c.id = cid))

/-- Modelled from the spec: Store `get_all` for prompts — every stored
prompt, in the store's insertion order. -/
def Storage.get_all_prompts (s : Storage) : List Prompt := s.prompts

/-- Modelled from the spec: Store `get_all` for collections. -/
def Storage.get_all_collections (s : Storage) : List Collection := s.collections

/-- Replace the entry keyed by `pid` (a Python dict assignment on an
existing key keeps the entry's position). -/
def replacePromptById (l : List Prompt) (pid : Str) (p : Prompt) : List Prompt :=
  l.map (fun q => if q.id = pid then p else q)

/-- Modelled from the spec: Store `create` for prompts — store by id with
overwrite semantics on an id collision, returning the entity unchanged. -/
def Storage.create_prompt (s : Storage) (p : Prompt) : Storage :=
  if s.prompts.any (fun q => decide (q.id = p.id)) then
    { s with prompts := replacePromptById s.prompts p.id p }
  else
    { s with prompts := s.prompts ++ [p] }

/-- Modelled from the spec: Store `update` for prompts — a plain replace of
the stored value at `id`; `none` and no mutation when the id is absent.
The Store does not itself merge fields nor touch `updated_at`. -/
def Storage.update_prompt (s : Storage) (pid : Str) (p : Prompt) : Option (Storage × Prompt) :=
  if s.prompts.any (fun q => decide (q.id = pid)) then
    some ({ s with prompts := replacePromptById s.prompts pid p }, p)
  else
    none

/-- Modelled from the spec: Store `delete` for prompts — remove the entry
if present, reporting whether anything was removed. -/
def Storage.delete_prompt (s : Storage) (pid : Str) : Option Storage :=
  if s.prompts.any (fun q => decide (q.id = pid)) then
    some { s with prompts := s.prompts.filter (fun q => decide (q.id ≠ pid)) }
  else
    none

/-- Modelled from the spec: Store `create` for collections. -/
def Storage.create_collection (s : Storage) (c : Collection) : Storage :=
  if s.collections.any (fun d => decide (d.id = c.id)) then
    { s with collections := s.collections.map (fun d => if d.id = c.id then c else d) }
  else
    { s with collections := s.collections ++ [c] }

/-- Orphan a prompt that referenced the deleted collection `cid`. -/
def orphan (cid : Str) (p : Prompt) : Prompt :=
  if p.collection_id = some cid then { p with collection_id := none } else p

/-- Modelled from the spec: Store `delete` for collections — after removal
the Store scans the prompts and sets `collection_id = None` on every prompt
whose `collection_id` equalled the deleted id (the orphan cascade is part
of the Store contract). `none` when the collection id is absent. -/
def Storage.delete_collection (s : Storage) (cid : Str) : Option Storage :=
  if s.collections.any (fun d => decide (d.id = cid)) then
    some { prompts := s.prompts.map (orphan cid),
           collections := s.collections.filter (fun d => decide (d.id ≠ cid)) }
  else
    none

/-- Modelled from the spec: Store `clear` — empty both mappings. -/
def Storage.clear (_ : Storage) : Storage := { prompts := [], collections := [] }

-- ============== Content utilities (app/utils.py, absent from the snapshot) ==============

/-- Modelled from the spec: `validate_prompt_content(text)` is true iff,
after trimming leading/trailing whitespace, the remaining text has at
least 10 characters. -/
def validate_prompt_content (s : Str) : Bool := decide (10 ≤ (pyStrip s).length)

/-- Code point admissible inside a `\x7b\x7bidentifier\x7d\x7d` placeholder:
letters, digits, underscores only. -/
def isIdentCp (n : Nat) : Bool :=
  (48 ≤ n && n ≤ 57) || (65 ≤ n && n ≤ 90) || (97 ≤ n && n ≤ 122) || n = 95

/-- Modelled from the spec: the scan behind `extract_variables` — find each
occurrence of two opening braces, a nonempty identifier run, and two closing
braces; on a malformed candidate resume one character later, exactly as a
left-to-right regex scan does.  Code points 123 and 125 are the braces.
The scan consumes at least one character per step, so a fuel of one more
than the text length (supplied by `extract_variables`) never runs out; the
fuel only makes the recursion structural. -/
def extractVarsFuel : Nat → Str → List Str
  | 0, _ => []
  | _ + 1, [] => []
  | fuel + 1, 123 :: 123 :: rest =>
    if (rest.takeWhile isIdentCp).isEmpty then extractVarsFuel fuel (123 :: rest)
    else
      match rest.dropWhile isIdentCp with
      | 125 :: 125 :: rest3 => rest.takeWhile isIdentCp :: extractVarsFuel fuel rest3
      | _ => extractVarsFuel fuel (123 :: rest)
  | fuel + 1, _ :: rest => extractVarsFuel fuel rest

/-- Modelled from the spec: `extract_variables(text)` returns the identifiers
of all well-formed placeholders in order of first character position,
duplicates included, malformed placeholders ignored. -/
def extract_variables (s : Str) : List Str := extractVarsFuel (s.length + 1) s

/-- Newest-first ordering on prompts: the sort key is `created_at`. -/
def promptDescLe (a b : Prompt) : Prop := b.created_at ≤ a.created_at

/-- Oldest-first ordering on prompts: the sort key is `created_at`. -/
def promptAscLe (a b : Prompt) : Prop := a.created_at ≤ b.created_at

instance : DecidableRel promptDescLe := fun a b => Nat.decLe b.created_at a.created_at

instance : DecidableRel promptAscLe := fun a b => Nat.decLe a.created_at b.created_at

instance : IsTotal Prompt promptDescLe := ⟨fun a b => Nat.le_total b.created_at a.created_at⟩

instance : IsTotal Prompt promptAscLe := ⟨fun a b => Nat.le_total a.created_at b.created_at⟩

instance : IsTrans Prompt promptDescLe := ⟨fun _ _ _ h1 h2 => Nat.le_trans h2 h1⟩

instance : IsTrans Prompt promptAscLe := ⟨fun _ _ _ h1 h2 => Nat.le_trans h1 h2⟩

/-- Modelled from the spec: `sort_prompts_by_date` orders prompts by
`created_at`, descending (newest first) by default, ascending when
explicitly requested; ties may resolve in any order. -/
def sort_prompts_by_date (l : List Prompt) (descending : Bool := true) : List Prompt :=
  if descending then List.insertionSort promptDescLe l
  else List.insertionSort promptAscLe l

/-- Modelled from the spec: `filter_prompts_by_collection` retains exactly
the prompts whose `collection_id` equals the supplied value; supplying
`None` retains the prompts with no collection. -/
def filter_prompts_by_collection (l : List Prompt) (cid : Option Str) : List Prompt :=
  l.filter (fun p => decide (p.collection_id = cid))

/-- Case-insensitive substring test: is `needle` an infix of `hay`? -/
def containsSub (needle hay : Str) : Bool :=
  decide (needle <:+: hay)

/-- Modelled from the spec: `search_prompts` retains the prompts where the
query is, case-insensitively, a substring of the title or of the
description; an absent description never matches. -/
def search_prompts (l : List Prompt) (q : Str) : List Prompt :=
  l.filter (fun p =>
    containsSub (lowerStr q) (lowerStr p.title) ||
    (match p.description with
     | some d => containsSub (lowerStr q) (lowerStr d)
     | none => false))

-- ============== Handlers (app/api.py) ==============

/-- The collection-existence guard shared by the create/update/patch
handlers of `app/api.py`: only a truthy `collection_id` is looked up. -/
def collectionCheck (s : Storage) (o : Option Str) : Bool :=
  if truthy o then (s.get_collection (o.getD [])).isSome else true

/-- The prompt record built by `create_prompt` of `app/api.py`: payload
fields plus generated id, lowercased tags and creation timestamps. -/
def createdPrompt (d : PromptCreate) (pid : Str) (now : Nat) : Prompt :=
  { id := pid, title := d.title, content := d.content,
    description := d.description, collection_id := d.collection_id,
    tags := d.tags.map lowerStr, created_at := now, updated_at := now }

/-- `create_prompt` of `app/api.py`, continued: guard, then store. -/
def create_prompt (s : Storage) (d : PromptCreate) (pid : Str) (now : Nat) :
    Option (Storage × Prompt) :=
  if !collectionCheck s d.collection_id then none
  else some (s.create_prompt (createdPrompt d pid now), createdPrompt d pid now)

/-- The merge performed by `update_prompt` of `app/api.py` (the PUT
handler): each `None` payload field falls back to the stored value; a
nonempty resulting tag list is lowercased; `id` and `created_at` are
carried over and `updated_at` is set to the current instant `now`. -/
def mergePut (existing : Prompt) (d : PromptUpdate) (now : Nat) : Prompt :=
  let tags0 := d.tags.getD existing.tags
  { id := existing.id,
    title := d.title.getD existing.title,
    content := d.content.getD existing.content,
    description := match d.description with
      | some x => some x
      | none => existing.description,
    collection_id := match d.collection_id with
      | some x => some x
      | none => existing.collection_id,
    tags := if tags0.isEmpty then tags0 else tags0.map lowerStr,
    created_at := existing.created_at, updated_at := now }

/-- `update_prompt` of `app/api.py`, continued: guards, then the merge and
the store-level replace. -/
def update_prompt (s : Storage) (pid : Str) (d : PromptUpdate) (now : Nat) :
    Option (Storage × Prompt) :=
  match s.get_prompt pid with
  | none => none
  | some existing =>
    if !collectionCheck s d.collection_id then none
    else s.update_prompt pid (mergePut existing d now)

/-- The merge performed by `patch_prompt` of `app/api.py` (the PATCH
handler): identical to the PUT merge except that the tag list is lowercased
only when the payload itself supplied a nonempty `tags` field. -/
def mergePatch (existing : Prompt) (d : PromptUpdate) (now : Nat) : Prompt :=
  let tags0 := d.tags.getD existing.tags
  { id := existing.id,
    title := d.title.getD existing.title,
    content := d.content.getD existing.content,
    description := match d.description with
      | some x => some x
      | none => existing.description,
    collection_id := match d.collection_id with
      | some x => some x
      | none => existing.collection_id,
    tags := if tags0.isEmpty || d.tags = none then tags0 else tags0.map lowerStr,
    created_at := existing.created_at, updated_at := now }

/-- `patch_prompt` of `app/api.py`, continued: guards, then the merge and
the store-level replace. -/
def patch_prompt (s : Storage) (pid : Str) (d : PromptUpdate) (now : Nat) :
    Option (Storage × Prompt) :=
  match s.get_prompt pid with
  | none => none
  | some existing =>
    if !collectionCheck s d.collection_id then none
    else s.update_prompt pid (mergePatch existing d now)

/-- `delete_prompt` of `app/api.py`: 404 when absent. -/
def delete_prompt (s : Storage) (pid : Str) : Option Storage :=
  s.delete_prompt pid

/-- `create_collection` of `app/api.py`. -/
def create_collection (s : Storage) (d : CollectionCreate) (cid : Str) (now : Nat) :
    Storage × Collection :=
  let c : Collection :=
    { id := cid, name := d.name, description := d.description, created_at := now }
  (s.create_collection c, c)

/-- `delete_collection` of `app/api.py`: 404 when absent, otherwise the
Store-level delete with its orphan cascade. -/
def delete_collection (s : Storage) (cid : Str) : Option Storage :=
  s.delete_collection cid

/-- `add_tag_to_prompt` of `app/api.py`: 404 when the prompt is absent; the
tag is stripped and lowercased; 422 when empty after stripping; appended
only when not already present; the prompt is then re-stored unchanged
otherwise (in particular `updated_at` is not touched). -/
def add_tag_to_prompt (s : Storage) (pid : Str) (tg : Str) : Option (Storage × Prompt) :=
  match s.get_prompt pid with
  | none => none
  | some prompt =>
    let t := lowerStr (pyStrip tg)
    if t.isEmpty then none
    else
      let newTags := if t ∈ prompt.tags then prompt.tags else prompt.tags ++ [t]
      let p : Prompt := { prompt with tags := newTags }
      s.update_prompt pid p

/-- Remove the first occurrence of a tag, the effect of Python
`list.remove`. -/
def removeFirstTag (t : Str) : List Str → List Str
  | [] => []
  | x :: xs => if x = t then xs else x :: removeFirstTag t xs

/-- `remove_tag_from_prompt` of `app/api.py`: 404 when the prompt is absent;
the tag is lowercased (not stripped); 404 when not present on the prompt;
otherwise its first occurrence is removed and the prompt re-stored
(`updated_at` again untouched). -/
def remove_tag_from_prompt (s : Storage) (pid : Str) (tg : Str) : Option Storage :=
  match s.get_prompt pid with
  | none => none
  | some prompt =>
    let t := lowerStr tg
    if t ∉ prompt.tags then none
    else
      let p : Prompt := { prompt with tags := removeFirstTag t prompt.tags }
      (s.update_prompt pid p).map Prod.fst

/-- `list_prompts` of `app/api.py`: the composite list operation.  Each of
the three filters runs only on a truthy argument; the result is always
sorted newest first. -/
def list_prompts (s : Storage) (collection_id : Option Str) (search : Option Str)
    (tag : Option Str) : List Prompt :=
  let ps := s.get_all_prompts
  let ps := if truthy collection_id then filter_prompts_by_collection ps collection_id else ps
  let ps := if truthy search then search_prompts ps (search.getD []) else ps
  let ps := if truthy tag then ps.filter (fun p => decide (lowerStr (tag.getD []) ∈ p.tags)) else ps
  sort_prompts_by_date ps true

-- ============== Reachable store states ==============

/-- The store states reachable from the empty store through the API
handlers (the only mutation paths of the system). -/
inductive Reachable : Storage → Prop
  | init : Reachable { prompts := [], collections := [] }
  | createP {s d pid now s' p} : Reachable s →
      create_prompt s d pid now = some (s', p) → Reachable s'
  | putP {s pid d now s' p} : Reachable s →
      update_prompt s pid d now = some (s', p) → Reachable s'
  | patchP {s pid d now s' p} : Reachable s →
      patch_prompt s pid d now = some (s', p) → Reachable s'
  | addT {s pid tg s' p} : Reachable s →
      add_tag_to_prompt s pid tg = some (s', p) → Reachable s'
  | removeT {s pid tg s'} : Reachable s →
      remove_tag_from_prompt s pid tg = some s' → Reachable s'
  | deleteP {s pid s'} : Reachable s →
      delete_prompt s pid = some s' → Reachable s'
  | createC {s d cid now} : Reachable s →
      Reachable (create_collection s d cid now).1
  | deleteC {s cid s'} : Reachable s →
      delete_collection s cid = some s' → Reachable s'
  | clearS {s} : Reachable s → Reachable (s.clear)

-- ============== Basic lemmas ==============

/-- ASCII lowercasing is idempotent on code points. -/
theorem lowerCp_idem (n : Nat) : lowerCp (lowerCp n) = lowerCp n := by
  by_cases h : 65 ≤ n ∧ n ≤ 90
  · rw [show lowerCp n = n + 32 from if_pos h]
    exact if_neg (by omega)
  · have e : lowerCp n = n := if_neg h
    rw [e, e]

/-- Lowercasing a whole string is idempotent. -/
theorem lowerStr_idem (s : Str) : lowerStr (lowerStr s) = lowerStr s := by
  simp only [lowerStr, List.map_map]
  exact List.map_congr_left (fun a _ => lowerCp_idem a)

/-- A list whose members are all fixed by `lowerStr` maps to itself. -/
theorem map_lowerStr_of_fixed {l : List Str} (h : ∀ t ∈ l, lowerStr t = t) :
    l.map lowerStr = l := by
  induction l with
  | nil => rfl
  | cons x xs ih =>
    simp only [List.map_cons, h x (List.mem_cons_self x xs)]
    rw [ih (fun t ht => h t (List.mem_cons_of_mem x ht))]

/-- Lowercasing does not create or destroy whitespace. -/
theorem isWsCp_lowerCp (n : Nat) : isWsCp (lowerCp n) = isWsCp n := by
  by_cases h : 65 ≤ n ∧ n ≤ 90
  · rw [show lowerCp n = n + 32 from if_pos h]
    have e1 : isWsCp (n + 32) = false := by simp only [isWsCp]; simp; omega
    have e2 : isWsCp n = false := by simp only [isWsCp]; simp; omega
    rw [e1, e2]
  · rw [show lowerCp n = n from if_neg h]

/-- `find?` by id commutes with mapping an id-preserving function. -/
theorem find?_map_of_id (f : Prompt → Prompt) (hf : ∀ q, (f q).id = q.id)
    (l : List Prompt) (pid : Str) :
    (l.map f).find? (fun q => decide (q.id = pid)) =
      (l.find? (fun q => decide (q.id = pid))).map f := by
  induction l with
  | nil => rfl
  | cons q t ih =>
    by_cases h : q.id = pid
    · rw [List.map_cons, List.find?_cons_of_pos _ (by simp [hf, h]),
        List.find?_cons_of_pos _ (by simp [h])]
      rfl
    · rw [List.map_cons, List.find?_cons_of_neg _ (by simp [hf, h]),
        List.find?_cons_of_neg _ (by simp [h]), ih]

/-- A successful store lookup returns a stored prompt bearing the queried id. -/
theorem get_prompt_mem {s : Storage} {pid : Str} {p : Prompt}
    (h : s.get_prompt pid = some p) : p ∈ s.prompts ∧ p.id = pid := by
  refine ⟨List.mem_of_find?_eq_some h, ?_⟩
  have := List.find?_some h
  simpa using this

/-- With pairwise-distinct ids, a stored prompt with the looked-up id is the
lookup's result. -/
theorem get_prompt_unique {s : Storage} {pid : Str} {p q : Prompt}
    (hn : (s.prompts.map Prompt.id).Nodup)
    (h : s.get_prompt pid = some p) (hq : q ∈ s.prompts) (hid : q.id = pid) : q = p := by
  have hp := get_prompt_mem h
  exact List.inj_on_of_nodup_map hn hq hp.1 (by rw [hid, hp.2])

-- ============== Concrete fixtures for witnesses ==============

/-- A concrete prompt id. -/
def idP1 : Str := str (r"p1")

/-- A second concrete prompt id. -/
def idP2 : Str := str (r"p2")

/-- A concrete collection id. -/
def idC1 : Str := str (r"c1")

/-- A concrete stored collection. -/
def col1 : Collection :=
  { id := idC1, name := str (r"Dev"), description := none, created_at := 0 }

/-- A concrete prompt filed under `col1`. -/
def prompt1 : Prompt :=
  { id := idP1, title := str (r"Email Template"), content := str (r"Content one"),
    description := none, collection_id := some idC1, tags := [str (r"python")],
    created_at := 1, updated_at := 1 }

/-- A concrete prompt with no collection. -/
def prompt2 : Prompt :=
  { id := idP2, title := str (r"SMS Template"), content := str (r"Content two"),
    description := none, collection_id := none, tags := [],
    created_at := 2, updated_at := 2 }

/-- A concrete store holding both prompts and the collection. -/
def store1 : Storage := { prompts := [prompt1, prompt2], collections := [col1] }

-- ============== C1 ==============

/-- The store obtained from `store1` by deleting collection `c1`. -/
def store1AfterDelete : Storage :=
  { prompts := [{ prompt1 with collection_id := none }, prompt2], collections := [] }

/-- C1: after a successful collection delete, every previously stored prompt
is still retrievable; one that referenced the deleted collection now has
`collection_id = None`, one that did not is unchanged, and every other
field survives verbatim in both cases. -/
theorem c1_delete_collection_orphans (s : Storage) (cid : Str) (s' : Storage)
    (pid : Str) (p : Prompt)
    (hdel : delete_collection s cid = some s')
    (hget : s.get_prompt pid = some p) :
    ∃ p', s'.get_prompt pid = some p' ∧
      p'.collection_id = (if p.collection_id = some cid then none else p.collection_id) ∧
      p'.id = p.id ∧ p'.title = p.title ∧ p'.content = p.content ∧
      p'.description = p.description ∧ p'.tags = p.tags ∧
      p'.created_at = p.created_at ∧ p'.updated_at = p.updated_at := by
  unfold delete_collection Storage.delete_collection at hdel
  split at hdel
  case isFalse => simp at hdel
  case isTrue =>
    injection hdel with hdel
    subst hdel
    refine ⟨orphan cid p, ?_, ?_⟩
    · unfold Storage.get_prompt at hget ⊢
      show (s.prompts.map (orphan cid)).find? (fun q => decide (q.id = pid)) = _
      rw [find?_map_of_id (orphan cid) (fun q => by unfold orphan; split <;> rfl) s.prompts pid,
        hget]
      rfl
    · by_cases hc : p.collection_id = some cid
      · simp [orphan, hc]
      · simp [orphan, hc]

/-- Witness for C1 at a concrete store: deleting `c1` orphans `prompt1`. -/
theorem c1_witness :
    ∃ p', store1AfterDelete.get_prompt idP1 = some p' ∧
      p'.collection_id = (if prompt1.collection_id = some idC1 then none
        else prompt1.collection_id) ∧
      p'.id = prompt1.id ∧ p'.title = prompt1.title ∧ p'.content = prompt1.content ∧
      p'.description = prompt1.description ∧ p'.tags = prompt1.tags ∧
      p'.created_at = prompt1.created_at ∧ p'.updated_at = prompt1.updated_at :=
  c1_delete_collection_orphans store1 idC1 store1AfterDelete idP1 prompt1
    (by decide) (by decide)

-- ============== C2 ==============

/-- A successful `find?` by id makes the id-membership test succeed. -/
theorem any_id_of_find? {l : List Prompt} {pid : Str} {old : Prompt}
    (h : l.find? (fun q => decide (q.id = pid)) = some old) :
    (l.any (fun q => decide (q.id = pid))) = true := by
  have hm : old ∈ l := List.mem_of_find?_eq_some h
  have hp : old.id = pid := by simpa using List.find?_some h
  exact List.any_eq_true.mpr ⟨old, hm, by simpa using hp⟩

/-- Replacing the entry at an occupied key makes lookup return the new value. -/
theorem find?_replacePromptById {l : List Prompt} {pid : Str} {old : Prompt} (p : Prompt)
    (h : l.find? (fun q => decide (q.id = pid)) = some old) (hp : p.id = pid) :
    (replacePromptById l pid p).find? (fun q => decide (q.id = pid)) = some p := by
  have hold : old.id = pid := by simpa using List.find?_some h
  unfold replacePromptById
  rw [find?_map_of_id (fun q => if q.id = pid then p else q)
    (fun q => by by_cases hq : q.id = pid <;> simp [hq, hp]) l pid, h]
  simp [hold]

/-- The Store update at an occupied key: the result and the subsequent
lookup, spelled out. -/
theorem update_prompt_eq {s : Storage} {pid : Str} {old : Prompt} (p : Prompt)
    (hget : s.get_prompt pid = some old) :
    s.update_prompt pid p =
      some ({ s with prompts := replacePromptById s.prompts pid p }, p) := by
  unfold Storage.update_prompt
  rw [if_pos (any_id_of_find? hget)]

/-- Lookup after a keyed replace returns the replacement. -/
theorem get_prompt_after_replace {s : Storage} {pid : Str} {old : Prompt} (p : Prompt)
    (hget : s.get_prompt pid = some old) (hp : p.id = pid) :
    Storage.get_prompt { s with prompts := replacePromptById s.prompts pid p } pid = some p :=
  find?_replacePromptById p hget hp

/-- `add_tag_to_prompt`'s resulting record, named for reuse in proofs. -/
def addTagResult (old : Prompt) (tg : Str) : Prompt :=
  { old with tags := if lowerStr (pyStrip tg) ∈ old.tags then old.tags
      else old.tags ++ [lowerStr (pyStrip tg)] }

/-- `remove_tag_from_prompt`'s resulting record, named for reuse in proofs. -/
def removeTagResult (old : Prompt) (tg : Str) : Prompt :=
  { old with tags := removeFirstTag (lowerStr tg) old.tags }

/-- C2 (amended): a successful tag add or tag remove leaves the prompt's
`updated_at` exactly as it was — neither handler touches the timestamp, so
it is not refreshed to the current time on these mutations. -/
theorem c2_tag_ops_keep_updated_at (s : Storage) (pid : Str) (tg : Str)
    (old : Prompt) (hget : s.get_prompt pid = some old) :
    (∀ s' p, add_tag_to_prompt s pid tg = some (s', p) →
       p.updated_at = old.updated_at ∧
       (s'.get_prompt pid).map Prompt.updated_at = some old.updated_at) ∧
    (∀ s', remove_tag_from_prompt s pid tg = some s' →
       (s'.get_prompt pid).map Prompt.updated_at = some old.updated_at) := by
  have hold : old.id = pid := (get_prompt_mem hget).2
  constructor
  · intro s' p happ
    unfold add_tag_to_prompt at happ
    rw [hget] at happ
    simp only at happ
    split at happ
    · simp at happ
    · rw [update_prompt_eq _ hget] at happ
      injection happ with happ
      injection happ with h1 h2
      subst h1
      subst h2
      refine ⟨rfl, ?_⟩
      show Option.map Prompt.updated_at
        (Storage.get_prompt
          { s with prompts := replacePromptById s.prompts pid (addTagResult old tg) } pid) =
        some old.updated_at
      rw [get_prompt_after_replace (addTagResult old tg) hget hold]
      rfl
  · intro s' happ
    unfold remove_tag_from_prompt at happ
    rw [hget] at happ
    simp only at happ
    split at happ
    · simp at happ
    · rw [update_prompt_eq _ hget] at happ
      simp only [Option.map_some'] at happ
      injection happ with happ
      subst happ
      show Option.map Prompt.updated_at
        (Storage.get_prompt
          { s with prompts := replacePromptById s.prompts pid (removeTagResult old tg) } pid) =
        some old.updated_at
      rw [get_prompt_after_replace (removeTagResult old tg) hget hold]
      rfl

/-- C2 counterexample: on the concrete store, adding tag "ai" to `prompt1`
succeeds and visibly mutates the tag list, yet the stored `updated_at`
still carries its pre-mutation value 1 — it is not set to the time of the
tag operation. -/
theorem c2_counterexample :
    (add_tag_to_prompt store1 idP1 (str (r"ai"))).map
        (fun r => (r.2.tags, r.2.updated_at)) =
      some ([str (r"python"), str (r"ai")], 1) ∧
    prompt1.tags = [str (r"python")] ∧ prompt1.updated_at = 1 := by decide

/-- `prompt1` after the tag "ai" has been added. -/
def prompt1ai : Prompt := { prompt1 with tags := [str (r"python"), str (r"ai")] }

/-- `store1` after the tag "ai" has been added to `prompt1`. -/
def store1AfterAddTag : Storage := { prompts := [prompt1ai, prompt2], collections := [col1] }

/-- Witness for C2 at the concrete store. -/
theorem c2_witness :
    prompt1ai.updated_at = prompt1.updated_at ∧
    (store1AfterAddTag.get_prompt idP1).map Prompt.updated_at = some prompt1.updated_at :=
  (c2_tag_ops_keep_updated_at store1 idP1 (str (r"ai")) prompt1 (by decide)).1
    store1AfterAddTag prompt1ai (by decide)

-- ============== C5 ==============

/-- C5: any successful full (PUT) or partial (PATCH) update keeps the
prompt's `id` and `created_at` and stamps `updated_at` with the current
instant, hence not below the original `updated_at` whenever time has not
run backwards — independently of which payload fields were supplied. -/
theorem c5_update_preserves_identity (s : Storage) (pid : Str) (d : PromptUpdate)
    (now : Nat) (s' : Storage) (res : Prompt) (orig : Prompt)
    (hget : s.get_prompt pid = some orig)
    (hupd : update_prompt s pid d now = some (s', res) ∨
            patch_prompt s pid d now = some (s', res)) :
    res.id = orig.id ∧ res.created_at = orig.created_at ∧ res.updated_at = now ∧
    (orig.updated_at ≤ now → orig.updated_at ≤ res.updated_at) := by
  rcases hupd with h | h
  · unfold update_prompt at h
    rw [hget] at h
    simp only at h
    split at h
    · simp at h
    · rw [update_prompt_eq _ hget] at h
      injection h with h
      injection h with h1 h2
      subst h2
      exact ⟨rfl, rfl, rfl, fun hle => hle⟩
  · unfold patch_prompt at h
    rw [hget] at h
    simp only at h
    split at h
    · simp at h
    · rw [update_prompt_eq _ hget] at h
      injection h with h
      injection h with h1 h2
      subst h2
      exact ⟨rfl, rfl, rfl, fun hle => hle⟩

/-- A payload renaming the title only. -/
def dTitle : PromptUpdate :=
  { title := some (str (r"New Title")), content := none, description := none,
    collection_id := none, tags := none }

/-- `prompt1` after the title update at instant 5. -/
def prompt1Renamed : Prompt :=
  { prompt1 with title := str (r"New Title"), updated_at := 5 }

/-- `store1` after the title update. -/
def store1Renamed : Storage :=
  { prompts := [prompt1Renamed, prompt2], collections := [col1] }

/-- Witness for C5 at the concrete store. -/
theorem c5_witness :
    prompt1Renamed.id = prompt1.id ∧
    prompt1Renamed.created_at = prompt1.created_at ∧
    prompt1Renamed.updated_at = 5 ∧
    (prompt1.updated_at ≤ 5 → prompt1.updated_at ≤ prompt1Renamed.updated_at) :=
  c5_update_preserves_identity store1 idP1 dTitle 5 store1Renamed prompt1Renamed prompt1
    (by decide) (Or.inl (by decide))

-- ============== C9 ==============

/-- C9: `validate_prompt_content` is true exactly when the text, after
trimming leading and trailing whitespace, keeps at least 10 characters
(internal whitespace counts); concretely it rejects "short", a
whitespace-only text and a 9-character text, and accepts "0123456789"
and texts whose trimmed core reaches 10 characters. -/
theorem c9_validate_prompt_content :
    (∀ s : Str, validate_prompt_content s = true ↔ 10 ≤ (pyStrip s).length) ∧
    validate_prompt_content (str (r"short")) = false ∧
    validate_prompt_content (str (r"   ")) = false ∧
    validate_prompt_content [10, 9, 32, 32] = false ∧
    validate_prompt_content (str (r"0123456789")) = true ∧
    validate_prompt_content (str (r"123456789")) = false ∧
    validate_prompt_content [] = false ∧
    validate_prompt_content (str (r"   valid content   ")) = true ∧
    validate_prompt_content (str (r"   short  ")) = false ∧
    validate_prompt_content (List.replicate 100 120) = true := by
  refine ⟨fun s => by simp [validate_prompt_content], ?_, ?_, ?_, ?_, ?_, ?_, ?_, ?_, ?_⟩
  all_goals decide

-- ============== C10 ==============

/-- C10: a payload whose `collection_id` is the empty string slips past the
collection-existence guard (which fires only on truthy values) on all three
of create, PUT and PATCH, yet the merge stores the empty string itself (it
is not `None`) — even in a store whose collection lookup for "" is empty,
so the stored reference was never validated. -/
theorem c10_empty_collection_id_bypasses_check (s : Storage) (d : PromptCreate)
    (dp : PromptUpdate) (pid : Str) (now : Nat)
    (hd : d.collection_id = some []) (hdp : dp.collection_id = some [])
    (hnone : s.get_collection [] = none) :
    (∃ s' p, create_prompt s d pid now = some (s', p) ∧ p.collection_id = some []) ∧
    (∀ orig, s.get_prompt pid = some orig →
      (∃ s' p, update_prompt s pid dp now = some (s', p) ∧ p.collection_id = some []) ∧
      (∃ s' p, patch_prompt s pid dp now = some (s', p) ∧ p.collection_id = some [])) := by
  have hcc : collectionCheck s d.collection_id = true := by
    rw [hd]; rfl
  have hccp : collectionCheck s dp.collection_id = true := by
    rw [hdp]; rfl
  refine ⟨?_, fun orig horig => ⟨?_, ?_⟩⟩
  · refine ⟨s.create_prompt (createdPrompt d pid now), createdPrompt d pid now, ?_, hd⟩
    unfold create_prompt
    rw [hcc]
    rfl
  · refine ⟨{ s with prompts := replacePromptById s.prompts pid (mergePut orig dp now) },
      mergePut orig dp now, ?_, ?_⟩
    · unfold update_prompt
      rw [horig]
      simp only [hccp, Bool.not_true]
      exact update_prompt_eq _ horig
    · simp only [mergePut, hdp]
  · refine ⟨{ s with prompts := replacePromptById s.prompts pid (mergePatch orig dp now) },
      mergePatch orig dp now, ?_, ?_⟩
    · unfold patch_prompt
      rw [horig]
      simp only [hccp, Bool.not_true]
      exact update_prompt_eq _ horig
    · simp only [mergePatch, hdp]

/-- A creation payload carrying the empty-string collection id. -/
def dEmptyCol : PromptCreate :=
  { title := str (r"T"), content := str (r"Body text here"), description := none,
    collection_id := some [], tags := [] }

/-- An update payload carrying the empty-string collection id. -/
def dpEmptyCol : PromptUpdate :=
  { title := none, content := none, description := none,
    collection_id := some [], tags := none }

/-- Witness for C10 at the concrete store. -/
theorem c10_witness :
    (∃ s' p, create_prompt store1 dEmptyCol idP1 7 = some (s', p) ∧
      p.collection_id = some []) ∧
    (∀ orig, store1.get_prompt idP1 = some orig →
      (∃ s' p, update_prompt store1 idP1 dpEmptyCol 7 = some (s', p) ∧
        p.collection_id = some []) ∧
      (∃ s' p, patch_prompt store1 idP1 dpEmptyCol 7 = some (s', p) ∧
        p.collection_id = some [])) :=
  c10_empty_collection_id_bypasses_check store1 dEmptyCol dpEmptyCol idP1 7
    (by decide) (by decide) (by decide)

-- ============== C8 ==============

/-- Every identifier returned by the placeholder scan is a nonempty run of
identifier characters, whatever the fuel. -/
theorem extractVarsFuel_wf : ∀ (fuel : Nat) (s : Str), ∀ v ∈ extractVarsFuel fuel s,
    v ≠ [] ∧ ∀ c ∈ v, isIdentCp c = true := by
  intro fuel s
  induction fuel, s using extractVarsFuel.induct with
  | case1 => simp [extractVarsFuel]
  | case2 => simp [extractVarsFuel]
  | case3 fuel rest hemp ih =>
    rw [extractVarsFuel]
    simp only [hemp, if_true]
    exact ih
  | case4 fuel rest hemp rest3 h ih =>
    rw [extractVarsFuel]
    rw [if_neg (by simp [hemp]), h]
    intro v hv
    rcases List.mem_cons.mp hv with hv | hv
    · subst hv
      refine ⟨by simpa using hemp, ?_⟩
      intro c hc
      exact List.mem_takeWhile_imp hc
    · exact ih v hv
  | case5 fuel rest hemp hno ih =>
    rw [extractVarsFuel]
    rw [if_neg (by simp [hemp])]
    split
    · rename_i rest3x heq
      exact absurd heq (fun hcon => hno rest3x hcon)
    · exact ih
  | case6 fuel a rest hne ih =>
    rw [extractVarsFuel]
    · exact ih
    · exact hne

/-- The spec's first extraction scenario text. -/
def tHello : Str :=
  str (r"Hello ") ++ [123, 123] ++ str (r"name") ++ [125, 125] ++
  str (r", order ") ++ [123, 123] ++ str (r"order_id") ++ [125, 125] ++ str (r" ready")

/-- The spec's malformed-plus-valid scenario text. -/
def tBadOk : Str :=
  [123, 123] ++ str (r"bad-name") ++ [125, 125] ++ [32] ++
  [123, 123] ++ str (r"ok_name") ++ [125, 125]

/-- The duplicate-placeholder test text. -/
def tDup : Str :=
  [123, 123] ++ str (r"name") ++ [125, 125] ++ str (r" and ") ++
  [123, 123] ++ str (r"name") ++ [125, 125] ++ str (r" again")

/-- The underscore test text. -/
def tUnders : Str :=
  [123, 123] ++ str (r"first_name") ++ [125, 125] ++ [32] ++
  [123, 123] ++ str (r"last_name") ++ [125, 125]

/-- The digits test text. -/
def tNums : Str :=
  [123, 123] ++ str (r"item1") ++ [125, 125] ++ [32] ++
  [123, 123] ++ str (r"item2") ++ [125, 125]

/-- The all-malformed test text (hyphen, internal space, single braces). -/
def tInvalid : Str :=
  [123, 123] ++ str (r"invalid-var") ++ [125, 125] ++ [32] ++
  [123, 123] ++ str (r"invalid var") ++ [125, 125] ++ [32, 123] ++
  str (r"invalid") ++ [125]

/-- The extra-brace test text. -/
def tNested : Str :=
  [123, 123, 123] ++ str (r"name") ++ [125, 125, 125] ++ [32] ++
  [123, 123, 123, 123] ++ str (r"nested") ++ [125, 125, 125, 125]

/-- C8: `extract_variables` returns exactly the identifiers of well-formed
double-brace placeholders, left to right, duplicates included; every
returned token is a nonempty identifier run; malformed placeholders are
skipped, extra surrounding braces are tolerated, and in particular the
malformed-plus-valid scenario returns just "ok_name". -/
theorem c8_extract_variables :
    (∀ s : Str, ∀ v ∈ extract_variables s, v ≠ [] ∧ ∀ c ∈ v, isIdentCp c = true) ∧
    extract_variables tHello = [str (r"name"), str (r"order_id")] ∧
    extract_variables tBadOk = [str (r"ok_name")] ∧
    extract_variables (str (r"Hello world")) = [] ∧
    extract_variables tDup = [str (r"name"), str (r"name")] ∧
    extract_variables tUnders = [str (r"first_name"), str (r"last_name")] ∧
    extract_variables tNums = [str (r"item1"), str (r"item2")] ∧
    extract_variables tInvalid = [] ∧
    extract_variables tNested = [str (r"name"), str (r"nested")] ∧
    extract_variables [] = [] := by
  refine ⟨fun s => extractVarsFuel_wf (s.length + 1) s, ?_, ?_, ?_, ?_, ?_, ?_, ?_, ?_, ?_⟩
  all_goals decide

/-- Witness for C8: instantiating the well-formedness clause at the
"ok_name" extraction. -/
theorem c8_witness :
    str (r"ok_name") ≠ [] ∧ ∀ c ∈ str (r"ok_name"), isIdentCp c = true :=
  c8_extract_variables.1 tBadOk (str (r"ok_name")) (by decide)

-- ============== C4 ==============

/-- C4 counterexample: on the concrete store, the composite list operation
with an explicit `None` collection filter returns both prompts — including
`prompt1`, which belongs to collection `c1` — rather than only the
unassigned ones, because the handler's `if collection_id:` guard skips the
filter for the falsy `None`. -/
theorem c4_counterexample :
    list_prompts store1 none none none = [prompt2, prompt1] ∧
    prompt1 ∈ list_prompts store1 none none none ∧
    prompt1.collection_id ≠ none := by decide

/-- C4 (amended): a non-empty collection id retains exactly the prompts
whose `collection_id` equals it (an id matching nothing gives an empty
result, never an error), while supplying `None` disables the collection
filter altogether, retaining every stored prompt — filtering down to the
unassigned prompts is not achievable through the composite list operation. -/
theorem c4_collection_filter (s : Storage) (cid : Str) (hcid : cid ≠ []) :
    (∀ p, p ∈ list_prompts s (some cid) none none ↔
       p ∈ s.prompts ∧ p.collection_id = some cid) ∧
    (∀ p, p ∈ list_prompts s none none none ↔ p ∈ s.prompts) := by
  have ht : truthy (some cid) = true := by
    simp [truthy, hcid]
  constructor
  · intro p
    unfold list_prompts sort_prompts_by_date filter_prompts_by_collection
    rw [ht]
    simp [Storage.get_all_prompts, truthy, List.mem_insertionSort, List.mem_filter]
  · intro p
    unfold list_prompts sort_prompts_by_date
    simp [Storage.get_all_prompts, truthy, List.mem_insertionSort]

/-- Witness for C4 at the concrete store and collection `c1`. -/
theorem c4_witness :
    prompt1 ∈ list_prompts store1 (some idC1) none none ↔
      prompt1 ∈ store1.prompts ∧ prompt1.collection_id = some idC1 :=
  (c4_collection_filter store1 idC1 (by decide)).1 prompt1

-- ============== C7 ==============

/-- Shape of any successful PUT or PATCH: some stored prompt was found, the
store was updated by an in-place keyed replace with the merge result, and
the merge result keeps `id` and `created_at` while stamping `now`. -/
theorem update_or_patch_shape {s : Storage} {pid : Str} {d : PromptUpdate} {now : Nat}
    {s' : Storage} {res : Prompt}
    (h : update_prompt s pid d now = some (s', res) ∨
         patch_prompt s pid d now = some (s', res)) :
    ∃ orig, s.get_prompt pid = some orig ∧
      s' = { s with prompts := replacePromptById s.prompts pid res } ∧
      res.id = orig.id ∧ res.created_at = orig.created_at ∧ res.updated_at = now := by
  rcases h with h | h
  · unfold update_prompt at h
    cases hg : s.get_prompt pid with
    | none => rw [hg] at h; simp at h
    | some orig =>
      rw [hg] at h
      simp only at h
      split at h
      · simp at h
      · rw [update_prompt_eq _ hg] at h
        injection h with h
        injection h with h1 h2
        subst h2
        subst h1
        exact ⟨orig, rfl, rfl, rfl, rfl, rfl⟩
  · unfold patch_prompt at h
    cases hg : s.get_prompt pid with
    | none => rw [hg] at h; simp at h
    | some orig =>
      rw [hg] at h
      simp only at h
      split at h
      · simp at h
      · rw [update_prompt_eq _ hg] at h
        injection h with h
        injection h with h1 h2
        subst h2
        subst h1
        exact ⟨orig, rfl, rfl, rfl, rfl, rfl⟩

/-- C7: the composite list operation orders by `created_at`: its output is
newest-first sorted, the standalone sort is newest-first by default and
oldest-first exactly when descending is explicitly switched off, and a
successful PUT or PATCH (which changes `updated_at`, never `created_at`)
leaves the identity sequence of the default listing untouched. -/
theorem c7_sort_by_created_at :
    (∀ l, List.Sorted promptDescLe (sort_prompts_by_date l true)) ∧
    (∀ l, List.Sorted promptAscLe (sort_prompts_by_date l false)) ∧
    (∀ s cid q tg, List.Sorted promptDescLe (list_prompts s cid q tg)) ∧
    (∀ s pid d now s' res, (s.prompts.map Prompt.id).Nodup →
       (update_prompt s pid d now = some (s', res) ∨
        patch_prompt s pid d now = some (s', res)) →
       (list_prompts s' none none none).map Prompt.id =
         (list_prompts s none none none).map Prompt.id) := by
  refine ⟨?_, ?_, ?_, ?_⟩
  · intro l
    exact List.sorted_insertionSort promptDescLe l
  · intro l
    exact List.sorted_insertionSort promptAscLe l
  · intro s cid q tg
    unfold list_prompts sort_prompts_by_date
    simp only [if_true]
    exact List.sorted_insertionSort promptDescLe _
  · intro s pid d now s' res hn hupd
    obtain ⟨orig, hg, hs', hid, hcr, _⟩ := update_or_patch_shape hupd
    subst hs'
    have hfc : ∀ x ∈ s.prompts,
        ((fun q => if q.id = pid then res else q) x).created_at = x.created_at := by
      intro x hx
      by_cases hxi : x.id = pid
      · have hxo : x = orig := get_prompt_unique hn hg hx hxi
        subst hxo
        simp only [if_pos hxi]
        exact hcr
      · simp only [if_neg hxi]
    have hfi : ∀ x ∈ s.prompts,
        ((fun q => if q.id = pid then res else q) x).id = x.id := by
      intro x hx
      by_cases hxi : x.id = pid
      · have hxo : x = orig := get_prompt_unique hn hg hx hxi
        subst hxo
        simp only [if_pos hxi]
        rw [hid]
      · simp only [if_neg hxi]
    have hl : ∀ a ∈ s.prompts, ∀ b ∈ s.prompts,
        promptDescLe a b ↔ promptDescLe ((fun q => if q.id = pid then res else q) a)
          ((fun q => if q.id = pid then res else q) b) := by
      intro a ha b hb
      unfold promptDescLe
      rw [hfc a ha, hfc b hb]
    show (List.insertionSort promptDescLe
        (replacePromptById s.prompts pid res)).map Prompt.id =
      (List.insertionSort promptDescLe s.prompts).map Prompt.id
    unfold replacePromptById
    rw [← List.map_insertionSort promptDescLe promptDescLe
      (fun q => if q.id = pid then res else q) s.prompts hl]
    rw [List.map_map]
    apply List.map_congr_left
    intro x hx
    have hx' : x ∈ s.prompts := by
      have := (List.perm_insertionSort promptDescLe s.prompts).mem_iff.mp hx
      exact this
    exact hfi x hx'

/-- Witness for C7: the concrete sorted listing and a concrete title update
that leaves the listing's identity order unchanged. -/
theorem c7_witness :
    List.Sorted promptDescLe (sort_prompts_by_date [prompt1, prompt2] true) ∧
    (list_prompts store1Renamed none none none).map Prompt.id =
      (list_prompts store1 none none none).map Prompt.id :=
  ⟨c7_sort_by_created_at.1 [prompt1, prompt2],
   c7_sort_by_created_at.2.2.2 store1 idP1 dTitle 5 store1Renamed prompt1Renamed
     (by decide) (Or.inl (by decide))⟩

-- ============== Strip lemmas ==============

/-- Dropping a satisfied prefix twice is the same as once. -/
theorem dropWhile_dropWhile (p : Nat → Bool) (l : Str) :
    (l.dropWhile p).dropWhile p = l.dropWhile p := by
  induction l with
  | nil => rfl
  | cons a t ih =>
    by_cases h : p a
    · rw [List.dropWhile_cons, if_pos h, ih]
    · rw [List.dropWhile_cons, if_neg h, List.dropWhile_cons, if_neg h]

/-- `stripLeft` is idempotent. -/
theorem stripLeft_stripLeft (l : Str) : stripLeft (stripLeft l) = stripLeft l :=
  dropWhile_dropWhile isWsCp l

/-- `stripRight` is idempotent. -/
theorem stripRight_stripRight (l : Str) : stripRight (stripRight l) = stripRight l := by
  unfold stripRight
  rw [List.reverse_reverse, dropWhile_dropWhile]

/-- A prefix of a string with no leading whitespace has no leading
whitespace either. -/
theorem stripLeft_of_append (a w : Str) (h : stripLeft (a ++ w) = a ++ w) :
    stripLeft a = a := by
  cases a with
  | nil => rfl
  | cons x t =>
    unfold stripLeft at h ⊢
    rw [List.cons_append, List.dropWhile_cons] at h
    by_cases hx : isWsCp x
    · exfalso
      rw [if_pos hx] at h
      have hle : (List.dropWhile isWsCp (t ++ w)).length ≤ (t ++ w).length :=
        List.IsSuffix.length_le (List.dropWhile_suffix isWsCp)
      have := congrArg List.length h
      simp only [List.length_cons] at this
      omega
    · rw [List.dropWhile_cons, if_neg hx]

/-- `stripRight` produces a prefix of its argument. -/
theorem stripRight_isPre (l : Str) : ∃ w, l = stripRight l ++ w := by
  obtain ⟨u, hu⟩ := (List.dropWhile_suffix isWsCp : l.reverse.dropWhile isWsCp <:+ l.reverse)
  refine ⟨u.reverse, ?_⟩
  calc l = l.reverse.reverse := (List.reverse_reverse l).symm
    _ = (u ++ l.reverse.dropWhile isWsCp).reverse := by rw [hu]
    _ = (l.reverse.dropWhile isWsCp).reverse ++ u.reverse := List.reverse_append u _
    _ = stripRight l ++ u.reverse := rfl

/-- `stripRight` keeps the no-leading-whitespace property. -/
theorem stripLeft_stripRight_of {m : Str} (h : stripLeft m = m) :
    stripLeft (stripRight m) = stripRight m := by
  obtain ⟨w, hw⟩ := stripRight_isPre m
  exact stripLeft_of_append _ w (by rw [← hw, h])

/-- Python `strip()` is idempotent. -/
theorem pyStrip_idem (l : Str) : pyStrip (pyStrip l) = pyStrip l := by
  unfold pyStrip
  rw [stripLeft_stripRight_of (stripLeft_stripLeft l), stripRight_stripRight]

/-- Dropping whitespace commutes with lowercasing. -/
theorem dropWhile_map_lower (l : Str) :
    (l.map lowerCp).dropWhile isWsCp = (l.dropWhile isWsCp).map lowerCp := by
  induction l with
  | nil => rfl
  | cons a t ih =>
    rw [List.map_cons, List.dropWhile_cons, List.dropWhile_cons, isWsCp_lowerCp a]
    by_cases h : isWsCp a
    · rw [if_pos h, if_pos h, ih]
    · rw [if_neg h, if_neg h, List.map_cons]

/-- `stripLeft` commutes with lowercasing. -/
theorem stripLeft_lowerStr (l : Str) : stripLeft (lowerStr l) = lowerStr (stripLeft l) :=
  dropWhile_map_lower l

/-- `stripRight` commutes with lowercasing. -/
theorem stripRight_lowerStr (l : Str) : stripRight (lowerStr l) = lowerStr (stripRight l) := by
  unfold stripRight lowerStr
  rw [← List.map_reverse, dropWhile_map_lower, List.map_reverse]

/-- Python `strip()` commutes with lowercasing. -/
theorem pyStrip_lowerStr (l : Str) : pyStrip (lowerStr l) = lowerStr (pyStrip l) := by
  unfold pyStrip
  rw [stripLeft_lowerStr, stripRight_lowerStr]

-- ============== Tag lowercase invariant ==============

/-- Every tag stored on any prompt of the store is lowercase. -/
def TagsLower (s : Storage) : Prop :=
  ∀ p ∈ s.prompts, ∀ t ∈ p.tags, lowerStr t = t

/-- Members of a lowercased list are fixed by lowercasing. -/
theorem tags_lower_of_map_lower {l : List Str} : ∀ t ∈ l.map lowerStr, lowerStr t = t := by
  intro t ht
  rcases List.mem_map.mp ht with ⟨y, _, rfl⟩
  exact lowerStr_idem y

/-- Members of a keyed replace are the replacement or old members. -/
theorem mem_replacePromptById {l : List Prompt} {pid : Str} {X q : Prompt}
    (h : q ∈ replacePromptById l pid X) : q = X ∨ q ∈ l := by
  unfold replacePromptById at h
  rcases List.mem_map.mp h with ⟨x, hx, he⟩
  by_cases hid : x.id = pid
  · rw [if_pos hid] at he
    exact Or.inl he.symm
  · rw [if_neg hid] at he
    exact Or.inr (he ▸ hx)

/-- The store-level create preserves the lowercase invariant when the new
entity satisfies it. -/
theorem tagsLower_create_store {s : Storage} {X : Prompt}
    (hs : TagsLower s) (hX : ∀ t ∈ X.tags, lowerStr t = t) :
    TagsLower (s.create_prompt X) := by
  intro p hp
  unfold Storage.create_prompt at hp
  split at hp
  · rcases mem_replacePromptById hp with rfl | hp
    · exact hX
    · exact hs p hp
  · rcases List.mem_append.mp hp with hp | hp
    · exact hs p hp
    · rw [List.mem_singleton.mp hp]
      exact hX

/-- A keyed replace preserves the lowercase invariant when the replacement
satisfies it. -/
theorem tagsLower_replace {s : Storage} {pid : Str} {X : Prompt}
    (hs : TagsLower s) (hX : ∀ t ∈ X.tags, lowerStr t = t) :
    ∀ p ∈ replacePromptById s.prompts pid X, ∀ t ∈ p.tags, lowerStr t = t := by
  intro p hp
  rcases mem_replacePromptById hp with rfl | hp
  · exact hX
  · exact hs p hp

/-- The PUT merge always produces lowercase tags. -/
theorem mergePut_tags_lower (orig : Prompt) (d : PromptUpdate) (now : Nat) :
    ∀ t ∈ (mergePut orig d now).tags, lowerStr t = t := by
  intro t ht
  have ht' : t ∈ (if (d.tags.getD orig.tags).isEmpty then d.tags.getD orig.tags
      else (d.tags.getD orig.tags).map lowerStr) := ht
  split at ht'
  · rename_i h0
    rw [List.isEmpty_iff.mp h0] at ht'
    simp at ht'
  · exact tags_lower_of_map_lower t ht'

/-- The PATCH merge produces lowercase tags or inherits stored tags. -/
theorem mergePatch_tags_lower (orig : Prompt) (d : PromptUpdate) (now : Nat) :
    ∀ t ∈ (mergePatch orig d now).tags, lowerStr t = t ∨ t ∈ orig.tags := by
  intro t ht
  have ht' : t ∈ (if (d.tags.getD orig.tags).isEmpty || d.tags = none
      then d.tags.getD orig.tags
      else (d.tags.getD orig.tags).map lowerStr) := ht
  split at ht'
  · rename_i h0
    by_cases he : (d.tags.getD orig.tags).isEmpty
    · rw [List.isEmpty_iff.mp he] at ht'
      simp at ht'
    · have hdn : d.tags = none := by
        rcases Bool.or_eq_true_iff.mp h0 with h | h
        · exact absurd h he
        · exact of_decide_eq_true h
      rw [hdn, Option.getD_none] at ht'
      exact Or.inr ht'
  · exact Or.inl (tags_lower_of_map_lower t ht')

/-- Removing a tag only drops elements. -/
theorem mem_removeFirstTag {t : Str} : ∀ {l : List Str} {q : Str},
    q ∈ removeFirstTag t l → q ∈ l := by
  intro l
  induction l with
  | nil => intro q h; simp [removeFirstTag] at h
  | cons x xs ih =>
    intro q h
    unfold removeFirstTag at h
    split at h
    · exact List.mem_cons_of_mem x h
    · rcases List.mem_cons.mp h with rfl | h
      · exact List.mem_cons_self q xs
      · exact List.mem_cons_of_mem x (ih h)

/-- Every reachable store satisfies the lowercase tag invariant. -/
theorem reachable_tagsLower : ∀ {s : Storage}, Reachable s → TagsLower s := by
  intro s hr
  induction hr with
  | init => intro p hp; simp at hp
  | createP hr heq ih =>
    rename_i s0 d pid now s' p
    unfold create_prompt at heq
    split at heq
    · simp at heq
    · injection heq with heq
      injection heq with h1 h2
      rw [← h1]
      exact tagsLower_create_store ih tags_lower_of_map_lower
  | putP hr heq ih =>
    rename_i s0 pid d now s' p
    obtain ⟨orig, hg, hs', _, _, _⟩ := update_or_patch_shape (Or.inl heq)
    have hres : p = mergePut orig d now := by
      unfold update_prompt at heq
      rw [hg] at heq
      simp only at heq
      split at heq
      · simp at heq
      · rw [update_prompt_eq _ hg] at heq
        injection heq with heq
        injection heq with e1 e2
        exact e2.symm
    subst hs'
    exact tagsLower_replace ih (hres ▸ mergePut_tags_lower orig d now)
  | patchP hr heq ih =>
    rename_i s0 pid d now s' p
    obtain ⟨orig, hg, hs', _, _, _⟩ := update_or_patch_shape (Or.inr heq)
    have horig : orig ∈ s0.prompts := (get_prompt_mem hg).1
    have hres : p = mergePatch orig d now := by
      unfold patch_prompt at heq
      rw [hg] at heq
      simp only at heq
      split at heq
      · simp at heq
      · rw [update_prompt_eq _ hg] at heq
        injection heq with heq
        injection heq with e1 e2
        exact e2.symm
    subst hs'
    refine tagsLower_replace ih ?_
    intro t ht
    rw [hres] at ht
    rcases mergePatch_tags_lower orig d now t ht with h | h
    · exact h
    · exact ih orig horig t h
  | addT hr heq ih =>
    rename_i s0 pid tg s' p
    unfold add_tag_to_prompt at heq
    cases hg : s0.get_prompt pid with
    | none => rw [hg] at heq; simp at heq
    | some old =>
      rw [hg] at heq
      simp only at heq
      split at heq
      · simp at heq
      · rw [update_prompt_eq _ hg] at heq
        injection heq with heq
        injection heq with e1 e2
        have hold : old ∈ s0.prompts := (get_prompt_mem hg).1
        rw [← e1]
        refine tagsLower_replace ih ?_
        intro t ht
        have ht' : t ∈ (if lowerStr (pyStrip tg) ∈ old.tags then old.tags
            else old.tags ++ [lowerStr (pyStrip tg)]) := ht
        split at ht'
        · exact ih old hold t ht'
        · rcases List.mem_append.mp ht' with h | h
          · exact ih old hold t h
          · rw [List.mem_singleton.mp h]
            exact lowerStr_idem (pyStrip tg)
  | removeT hr heq ih =>
    rename_i s0 pid tg s'
    unfold remove_tag_from_prompt at heq
    cases hg : s0.get_prompt pid with
    | none => rw [hg] at heq; simp at heq
    | some old =>
      rw [hg] at heq
      simp only at heq
      split at heq
      · simp at heq
      · rw [update_prompt_eq _ hg] at heq
        simp only [Option.map_some'] at heq
        injection heq with heq
        have hold : old ∈ s0.prompts := (get_prompt_mem hg).1
        rw [← heq]
        refine tagsLower_replace ih ?_
        intro t ht
        exact ih old hold t (mem_removeFirstTag ht)
  | deleteP hr heq ih =>
    rename_i s0 pid s'
    unfold delete_prompt Storage.delete_prompt at heq
    split at heq
    · injection heq with heq
      rw [← heq]
      intro p hp
      exact ih p (List.mem_of_mem_filter hp)
    · simp at heq
  | createC hr ih =>
    rename_i s0 d cid now
    intro p hp
    refine ih p ?_
    have : (Storage.create_collection s0
        { id := cid, name := d.name, description := d.description,
          created_at := now }).prompts = s0.prompts := by
      unfold Storage.create_collection
      split <;> rfl
    rw [show (create_collection s0 d cid now).1 =
      Storage.create_collection s0
        { id := cid, name := d.name, description := d.description,
          created_at := now } from rfl, this] at hp
    exact hp
  | deleteC hr heq ih =>
    rename_i s0 cid s'
    unfold delete_collection Storage.delete_collection at heq
    split at heq
    · injection heq with heq
      rw [← heq]
      intro p hp
      rcases List.mem_map.mp hp with ⟨x, hx, rfl⟩
      have : (orphan cid x).tags = x.tags := by
        unfold orphan
        split <;> rfl
      rw [this]
      exact ih x hx
    · simp at heq
  | clearS hr ih =>
    intro p hp
    simp [Storage.clear] at hp

-- ============== C3 ==============

/-- A creation payload whose tags carry whitespace and a case-variant
duplicate. -/
def dBadTags : PromptCreate :=
  { title := str (r"T"), content := str (r"Some content here"), description := none,
    collection_id := none, tags := [str (r"A "), str (r"a ")] }

/-- The prompt stored for `dBadTags`: tags lowercased but untrimmed and
duplicated. -/
def promptBad : Prompt :=
  { id := idP1, title := str (r"T"), content := str (r"Some content here"),
    description := none, collection_id := none,
    tags := [str (r"a "), str (r"a ")], created_at := 0, updated_at := 0 }

/-- The reachable store holding `promptBad`. -/
def storeBadTags : Storage := { prompts := [promptBad], collections := [] }

/-- C3 counterexample: creating a prompt with tags ["A ", "a "] reaches a
store whose prompt carries the tag "a " — lowercased but with trailing
whitespace — twice; so stored tags are neither whitespace-trimmed nor
duplicate-free on the creation path. -/
theorem c3_counterexample :
    create_prompt { prompts := [], collections := [] } dBadTags idP1 0 =
      some (storeBadTags, promptBad) ∧
    Reachable storeBadTags ∧
    ∃ p ∈ storeBadTags.prompts, ∃ t ∈ p.tags,
      pyStrip t ≠ t ∧ 2 ≤ p.tags.count t := by
  refine ⟨by decide, ?_, by decide⟩
  exact @Reachable.createP { prompts := [], collections := [] } dBadTags idP1 0
    storeBadTags promptBad Reachable.init (by decide)

/-- C3 (amended): in every reachable store every stored tag is lowercase
(`lower` is applied on every write path); but trimming and uniqueness hold
only for the tag-add operation, which inserts the stripped, lowercased tag
exactly when it is not already present — creation and update payload tags
are lowercased only. -/
theorem c3_stored_tags_lowercase (s : Storage) (hr : Reachable s) :
    (∀ p ∈ s.prompts, ∀ t ∈ p.tags, lowerStr t = t) ∧
    (∀ pid tg s' p old, s.get_prompt pid = some old →
       add_tag_to_prompt s pid tg = some (s', p) →
       p.tags = (if lowerStr (pyStrip tg) ∈ old.tags then old.tags
                 else old.tags ++ [lowerStr (pyStrip tg)]) ∧
       pyStrip (lowerStr (pyStrip tg)) = lowerStr (pyStrip tg) ∧
       lowerStr (lowerStr (pyStrip tg)) = lowerStr (pyStrip tg)) := by
  constructor
  · exact reachable_tagsLower hr
  · intro pid tg s' p old hget happ
    unfold add_tag_to_prompt at happ
    rw [hget] at happ
    simp only at happ
    split at happ
    · simp at happ
    · rw [update_prompt_eq _ hget] at happ
      injection happ with happ
      injection happ with e1 e2
      refine ⟨?_, ?_, ?_⟩
      · rw [← e2]
      · rw [pyStrip_lowerStr, pyStrip_idem]
      · exact lowerStr_idem (pyStrip tg)

/-- The concrete store `store1` is reachable: create the collection, then
the two prompts. -/
theorem store1_reachable : Reachable store1 := by
  have r0 : Reachable { prompts := [], collections := [] } := Reachable.init
  have r1 : Reachable { prompts := [], collections := [col1] } :=
    @Reachable.createC { prompts := [], collections := [] }
      { name := str (r"Dev"), description := none } idC1 0 r0
  have r2 : Reachable { prompts := [prompt1], collections := [col1] } :=
    @Reachable.createP { prompts := [], collections := [col1] }
      { title := str (r"Email Template"), content := str (r"Content one"),
        description := none, collection_id := some idC1, tags := [str (r"python")] }
      idP1 1 { prompts := [prompt1], collections := [col1] } prompt1 r1 (by decide)
  exact @Reachable.createP { prompts := [prompt1], collections := [col1] }
    { title := str (r"SMS Template"), content := str (r"Content two"),
      description := none, collection_id := none, tags := [] }
    idP2 2 store1 prompt2 r2 (by decide)

/-- Witness for C3 at the concrete reachable store. -/
theorem c3_witness :
    lowerStr (str (r"python")) = str (r"python") ∧
    (prompt1ai.tags = (if lowerStr (pyStrip (str (r"ai"))) ∈ prompt1.tags
        then prompt1.tags
        else prompt1.tags ++ [lowerStr (pyStrip (str (r"ai")))]) ∧
     pyStrip (lowerStr (pyStrip (str (r"ai")))) = lowerStr (pyStrip (str (r"ai"))) ∧
     lowerStr (lowerStr (pyStrip (str (r"ai")))) = lowerStr (pyStrip (str (r"ai")))) :=
  ⟨(c3_stored_tags_lowercase store1 store1_reachable).1 prompt1 (by decide)
      (str (r"python")) (by decide),
   (c3_stored_tags_lowercase store1 store1_reachable).2 idP1 (str (r"ai"))
      store1AfterAddTag prompt1ai prompt1 (by decide) (by decide)⟩

-- ============== C6 ==============

/-- On a stored prompt whose tags are already lowercase, the PUT merge and
the PATCH merge coincide: the only textual difference between the handlers
is that PUT re-lowercases inherited tags, which is the identity there. -/
theorem mergePut_eq_mergePatch (orig : Prompt) (d : PromptUpdate) (now : Nat)
    (h : ∀ t ∈ orig.tags, lowerStr t = t) :
    mergePut orig d now = mergePatch orig d now := by
  unfold mergePut mergePatch
  have htags : (if (d.tags.getD orig.tags).isEmpty then d.tags.getD orig.tags
      else (d.tags.getD orig.tags).map lowerStr) =
      (if (d.tags.getD orig.tags).isEmpty || d.tags = none then d.tags.getD orig.tags
      else (d.tags.getD orig.tags).map lowerStr) := by
    cases hd : d.tags with
    | none =>
      simp only [Option.getD_none]
      rw [if_pos (show (orig.tags.isEmpty || decide True) = true from by simp)]
      split
      · rfl
      · exact map_lowerStr_of_fixed h
    | some ts =>
      simp only [Option.getD_some]
      have : (ts.isEmpty || decide (some ts = none)) = ts.isEmpty := by simp
      rw [this]
  dsimp only
  rw [htags]

/-- C6: on every reachable store, the PUT handler and the PATCH handler are
extensionally equal — same guards, same merge, same stored result — for
every prompt id, payload and instant. -/
theorem c6_put_patch_agree (s : Storage) (hr : Reachable s) (pid : Str)
    (d : PromptUpdate) (now : Nat) :
    update_prompt s pid d now = patch_prompt s pid d now := by
  unfold update_prompt patch_prompt
  cases hg : s.get_prompt pid with
  | none => rfl
  | some orig =>
    simp only
    rw [mergePut_eq_mergePatch orig d now
      (reachable_tagsLower hr orig (get_prompt_mem hg).1)]

/-- Witness for C6 at the concrete reachable store. -/
theorem c6_witness :
    update_prompt store1 idP1 dTitle 5 = patch_prompt store1 idP1 dTitle 5 :=
  c6_put_patch_agree store1 store1_reachable idP1 dTitle 5
